import Mathlib

/-!
Verification of the contact-book core of `contact_manager.py`.

The Python module is embedded shallowly: strings are Lean strings over
their character lists, the mutable GUI state (`self.contacts`,
`self.filtered_contacts`, `self.var_search`, `self.selected_index`)
becomes an explicit `AppState`, and each event handler becomes a pure
function on that state.  Fallible handlers return `Except CmErr AppState`;
an `Except.error` models the Python path that shows a message box and
returns before mutating any state, so the store is unchanged by
construction on every error.
-/

/-- Whitespace as stripped by the Python `str.strip` method and matched by
the regex class `\s` (ASCII range). -/
def isPySpace (c : Char) : Bool :=
  c == ' ' || c == '\t' || c == '\n' || c == '\r' || c == '\x0b' || c == '\x0c'

/-- Embeds `str.strip` on the character list: drop leading whitespace, then
drop trailing whitespace. -/
def stripChars (l : List Char) : List Char :=
  ((l.dropWhile isPySpace).reverse.dropWhile isPySpace).reverse

/-- Embeds the Python expression `s.strip()`. -/
def pyStrip (s : String) : String := ⟨stripChars s.data⟩

/-- Embeds the Python expression `s.lower()`, character-wise lowering. -/
def pyLower (s : String) : String := ⟨s.data.map Char.toLower⟩

/-- Embeds the Python substring test `needle in hay` on character lists:
true when `n` occurs contiguously inside the second argument. -/
def listContains (n : List Char) : List Char → Bool
  | [] => n.isEmpty
  | c :: t => n.isPrefixOf (c :: t) || listContains n t

/-- Embeds the Python expression `needle in hay` for strings. -/
def strContains (hay needle : String) : Bool := listContains needle.data hay.data

/-- Characters allowed by the phone regex `[0-9+\-() ]`. -/
def isPhoneChar (c : Char) : Bool :=
  c.isDigit || c == '+' || c == '-' || c == '(' || c == ')' || c == ' '

/-- Embeds `validate_phone`: strip, then a full match of the regex
`[0-9+\-() ]{7,20}`, i.e. length between 7 and 20 and every character
allowed. -/
def validate_phone (phone : String) : Bool :=
  let p := (pyStrip phone).data
  decide (7 ≤ p.length) && decide (p.length ≤ 20) && p.all isPhoneChar

/-- Characters allowed in the local and domain parts of the email regex,
namely `[^@\s]`. -/
def isEmailChar (c : Char) : Bool := !(c == '@') && !(isPySpace c)

/-- Embeds `validate_email`: strip, then a full match of the regex
`[^@\s]+@[^@\s]+\.[^@\s]+`.  A full match exists exactly when the string
splits at its first `@` into a nonempty whitespace-free local part and a
tail that is `@`-free, whitespace-free, and has a dot that is neither its
first nor its last character. -/
def validate_email (email : String) : Bool :=
  let l := (pyStrip email).data
  match l.span (fun c => !(c == '@')) with
  | (loc, _ :: dom) =>
      !loc.isEmpty && loc.all isEmailChar && dom.all isEmailChar &&
        ((dom.drop 1).dropLast.contains '.')
  | (_, []) => false

/-- One contact record, and also the shape of a form draft or of one item
of an imported file after the `str(...)` coercions: the four string fields
`name`, `phone`, `email`, `address`. -/
structure Contact where
  name : String
  phone : String
  email : String
  address : String
  deriving DecidableEq, Repr

/-- Strips all four fields, as `add_contact`, `update_contact` and the
loop of `import_json` all do before using a draft. -/
def stripDraft (d : Contact) : Contact :=
  ⟨pyStrip d.name, pyStrip d.phone, pyStrip d.email, pyStrip d.address⟩

/-- The natural key of a record: the pair of the lowercased stripped name
and the stripped phone, used by the duplicate checks. -/
def natKey (c : Contact) : String × String :=
  (pyLower (pyStrip c.name), pyStrip c.phone)

/-- The key expression used verbatim by `import_json`, which lowers the
name before stripping it: `(c["name"].lower().strip(), c["phone"].strip())`. -/
def impKey (c : Contact) : String × String :=
  (pyStrip (pyLower c.name), pyStrip c.phone)

/-- No two records of the list share a natural key. -/
def keysDistinct (cs : List Contact) : Prop := (cs.map natKey).Nodup

/-- The Validator rules of the spec on one stored record: nonempty name and
phone after trimming, phone matching the pattern, email empty or matching
the shape check. -/
def validRecord (c : Contact) : Bool :=
  !(pyStrip c.name == "") && !(pyStrip c.phone == "") &&
    validate_phone c.phone && (pyStrip c.email == "" || validate_email c.email)

/-- All four fields of the record carry no leading or trailing whitespace. -/
def isTrimmed (c : Contact) : Prop :=
  pyStrip c.name = c.name ∧ pyStrip c.phone = c.phone ∧
    pyStrip c.email = c.email ∧ pyStrip c.address = c.address

/-- The user-facing failure modes of the handlers.  The last two model the
Python exceptions `IndexError` (stale selection index) and `ValueError`
(`list.index` misses), which the GUI flow never reaches. -/
inductive CmErr where
  | missingField
  | invalidPhone
  | invalidEmail
  | duplicateKey
  | noSelection
  | indexError
  | valueError
  deriving DecidableEq, Repr

/-- The mutable state of the `ContactManager` object: the canonical list
`self.contacts`, the derived view `self.filtered_contacts`, the search
text `self.var_search`, and `self.selected_index`. -/
structure AppState where
  contacts : List Contact
  filtered : List Contact
  query : String
  selected : Option Nat
  deriving DecidableEq, Repr

/-- The filtering computation of `_apply_search` as a pure function of the
canonical list and the query: strip and lower the query; an empty result
keeps the whole list, otherwise keep the records whose lowered name or
lowered phone contains the term. -/
def applyFilter (cs : List Contact) (q : String) : List Contact :=
  let term := pyLower (pyStrip q)
  if term = "" then cs
  else cs.filter (fun c =>
    strContains (pyLower c.name) term || strContains (pyLower c.phone) term)

/-- Embeds `_apply_search`: recompute the filtered view from the canonical
list and the current query, and reset the selection to none. -/
def applySearch (st : AppState) : AppState :=
  { st with filtered := applyFilter st.contacts st.query, selected := none }

/-- Embeds a write to the search variable, whose trace callback runs
`_apply_search`. -/
def setQuery (st : AppState) (q : String) : AppState :=
  applySearch { st with query := q }

/-- Embeds `on_tree_select` for a row click: the tree item id is the index
into the filtered view. -/
def selectRow (st : AppState) (i : Nat) : AppState := { st with selected := some i }

/-- Embeds `add_contact`: strip the form fields, check presence, phone
pattern and email shape, reject a natural-key duplicate, else append the
new record and rerun the search (which saves and clears the form in the
source; persistence is modeled separately). -/
def addContact (st : AppState) (d : Contact) : Except CmErr AppState :=
  let name := pyStrip d.name
  let phone := pyStrip d.phone
  let email := pyStrip d.email
  let address := pyStrip d.address
  if name == "" || phone == "" then .error .missingField
  else if !(validate_phone phone) then .error .invalidPhone
  else if !(email == "") && !(validate_email email) then .error .invalidEmail
  else if st.contacts.any (fun c =>
      pyLower (pyStrip c.name) == pyLower name && pyStrip c.phone == phone) then
    .error .duplicateKey
  else
    .ok (applySearch { st with contacts := st.contacts ++ [⟨name, phone, email, address⟩] })

/-- Embeds `update_contact`: require a selection, validate the draft like
`add_contact` but with no duplicate check, resolve the filtered index to
the canonical index through `list.index` on the selected record, and
replace that record in place. -/
def updateContact (st : AppState) (d : Contact) : Except CmErr AppState :=
  match st.selected with
  | none => .error .noSelection
  | some i =>
    let name := pyStrip d.name
    let phone := pyStrip d.phone
    let email := pyStrip d.email
    let address := pyStrip d.address
    if name == "" || phone == "" then .error .missingField
    else if !(validate_phone phone) then .error .invalidPhone
    else if !(email == "") && !(validate_email email) then .error .invalidEmail
    else
      match st.filtered[i]? with
      | none => .error .indexError
      | some target =>
        match st.contacts.indexOf? target with
        | none => .error .valueError
        | some ri =>
          .ok (applySearch { st with contacts := st.contacts.set ri ⟨name, phone, email, address⟩ })

/-- Embeds the confirmed branch of `delete_selected`: require a selection,
resolve it through `list.index`, delete that position, rerun the search. -/
def deleteConfirmed (st : AppState) : Except CmErr AppState :=
  match st.selected with
  | none => .error .noSelection
  | some i =>
    match st.filtered[i]? with
    | none => .error .indexError
    | some c =>
      match st.contacts.indexOf? c with
      | none => .error .valueError
      | some ri => .ok (applySearch { st with contacts := st.contacts.eraseIdx ri })

/-- Embeds the body of `import_json` after `json.load` succeeded on a list
of objects: `items` holds the `str(...)`-coerced field values of each
element in file order.  Strip every field, keep the elements with nonempty
name and phone, drop those whose key is already present in the canonical
list, append the rest in order, rerun the search.  Returns the new state
and the reported count of the items actually appended. -/
def importMerge (st : AppState) (items : List Contact) : AppState × Nat :=
  let valid := (items.map stripDraft).filter (fun c =>
    !(c.name == "") && !(c.phone == ""))
  let existingPairs := st.contacts.map impKey
  let newItems := valid.filter (fun c => !(existingPairs.contains (impKey c)))
  (applySearch { st with contacts := st.contacts ++ newItems }, newItems.length)

/-- The states the GUI can reach from a fresh start with no data file:
the constructor for each event handler takes the step exactly when the
embedded handler succeeds.  Row selection is constrained to the rows the
tree actually shows. -/
inductive Reachable : AppState → Prop where
  | init : Reachable ⟨[], [], "", none⟩
  | query (st : AppState) (q : String) : Reachable st → Reachable (setQuery st q)
  | selectSome (st : AppState) (i : Nat) : Reachable st →
      i < st.filtered.length → Reachable (selectRow st i)
  | selectNone (st : AppState) : Reachable st → Reachable { st with selected := none }
  | addOk (st st2 : AppState) (d : Contact) : Reachable st →
      addContact st d = .ok st2 → Reachable st2
  | updateOk (st st2 : AppState) (d : Contact) : Reachable st →
      updateContact st d = .ok st2 → Reachable st2
  | deleteOk (st st2 : AppState) : Reachable st →
      deleteConfirmed st = .ok st2 → Reachable st2
  | importOk (st : AppState) (items : List Contact) : Reachable st →
      Reachable (importMerge st items).1

/-- A JSON value, the shape `json.load` and `json.dump` work with. -/
inductive Json where
  | null
  | bool (b : Bool)
  | num (n : Int)
  | str (s : String)
  | arr (elems : List Json)
  | obj (fields : List (String × Json))

/-- The JSON object `json.dump` writes for one record. -/
def contactToJson (c : Contact) : Json :=
  .obj [("name", .str c.name), ("phone", .str c.phone),
        ("email", .str c.email), ("address", .str c.address)]

/-- The JSON value `_save_contacts` and `export_json` serialize: the array
of the record objects in store order.  The textual layer (`json.dump`
then `json.load`) is the identity on this value. -/
def saveJson (cs : List Contact) : Json := .arr (cs.map contactToJson)

/-- Reads a string field of a JSON object by key. -/
def getStr (fields : List (String × Json)) (k : String) : Option String :=
  match fields.lookup k with
  | some (.str s) => some s
  | _ => none

/-- Reads one record from a JSON value the way the program consumes it:
`c["name"]` and `c["phone"]` must be present strings, `c.get("email","")`
and `c.get("address","")` default to empty. -/
def readContact (j : Json) : Option Contact :=
  match j with
  | .obj fields =>
    match getStr fields "name", getStr fields "phone" with
    | some n, some p =>
        some ⟨n, p, (getStr fields "email").getD "", (getStr fields "address").getD ""⟩
    | _, _ => none
  | _ => none

/-- Reads every element of a JSON array as a record, failing if any
element lacks the record shape. -/
def readContacts : List Json → Option (List Contact)
  | [] => some []
  | j :: t =>
    match readContact j, readContacts t with
    | some c, some cs => some (c :: cs)
    | _, _ => none

/-- Interprets a loaded JSON value as a record sequence, when it has the
documented shape of an array of record objects. -/
def readStore (j : Json) : Option (List Contact) :=
  match j with
  | .arr elems => readContacts elems
  | _ => none

/-- The three observable conditions of the data file at startup. -/
inductive FileState where
  | missing
  | unreadable
  | parsed (j : Json)

/-- Embeds the Python conversion `list(x)` on a parsed JSON value: arrays
yield their elements, strings their one-character substrings, objects
their keys; numbers, booleans and null are not iterable, so the
conversion raises `TypeError`, modeled as `none`. -/
def pyList : Json → Option (List Json)
  | .arr elems => some elems
  | .str s => some (s.data.map (fun c => Json.str ⟨[c]⟩))
  | .obj fields => some (fields.map (fun kv => Json.str kv.1))
  | _ => none

/-- Embeds the whole of `_load_contacts`, including the final rebuild of
the filtered view, which stands outside the try block.  The result is
`none` when the handler raises, else the value assigned to
`self.contacts`, the list assigned to `self.filtered_contacts`, and
whether the load-error warning fired.  A missing file gives empty lists
silently; a file that raises while being opened or parsed gives empty
lists with the warning; a file parsed by `json.load` is assigned verbatim
with no shape check, and the rebuild of the filtered view then raises an
uncaught `TypeError` exactly when the parsed value is not iterable. -/
def loadContacts (fs : FileState) : Option (Json × List Json × Bool) :=
  match fs with
  | .missing => some (.arr [], [], false)
  | .unreadable => some (.arr [], [], true)
  | .parsed j =>
    match pyList j with
    | some l => some (j, l, false)
    | none => none

/-! Auxiliary lemmas about the string primitives. -/

theorem length_dropWhile_le (p : α → Bool) : ∀ (l : List α), (l.dropWhile p).length ≤ l.length
  | [] => Nat.le_refl _
  | a :: t => by
    rw [List.dropWhile_cons]
    split
    · exact Nat.le_succ_of_le (length_dropWhile_le p t)
    · exact Nat.le_refl _

theorem dropWhile_idem (p : α → Bool) : ∀ (l : List α),
    (l.dropWhile p).dropWhile p = l.dropWhile p
  | [] => rfl
  | a :: t => by
    rw [List.dropWhile_cons]
    split
    · exact dropWhile_idem p t
    · rw [List.dropWhile_cons]
      simp [*]

theorem dropWhile_eq_self_left (p : α → Bool) (B t : List α)
    (h : (B ++ t).dropWhile p = B ++ t) : B.dropWhile p = B := by
  cases B with
  | nil => rfl
  | cons b bs =>
    rw [List.cons_append, List.dropWhile_cons] at h
    rw [List.dropWhile_cons]
    by_cases hp : p b
    · simp only [hp, if_true] at h
      have hle := length_dropWhile_le p (bs ++ t)
      rw [h, List.length_cons] at hle
      omega
    · simp [hp]

theorem stripChars_idem (l : List Char) : stripChars (stripChars l) = stripChars l := by
  unfold stripChars
  have h1 : (l.dropWhile isPySpace).dropWhile isPySpace = l.dropWhile isPySpace :=
    dropWhile_idem _ l
  have hdecomp : l.dropWhile isPySpace =
      ((l.dropWhile isPySpace).reverse.dropWhile isPySpace).reverse ++
        ((l.dropWhile isPySpace).reverse.takeWhile isPySpace).reverse := by
    have := List.takeWhile_append_dropWhile (p := isPySpace) (l := (l.dropWhile isPySpace).reverse)
    calc l.dropWhile isPySpace
        = (l.dropWhile isPySpace).reverse.reverse := by rw [List.reverse_reverse]
      _ = ((l.dropWhile isPySpace).reverse.takeWhile isPySpace ++
            (l.dropWhile isPySpace).reverse.dropWhile isPySpace).reverse := by rw [this]
      _ = _ := by rw [List.reverse_append]
  have h2 : (((l.dropWhile isPySpace).reverse.dropWhile isPySpace).reverse).dropWhile isPySpace =
      ((l.dropWhile isPySpace).reverse.dropWhile isPySpace).reverse := by
    apply dropWhile_eq_self_left isPySpace _ _
    rw [← hdecomp]
    exact h1
  rw [h2, List.reverse_reverse, dropWhile_idem]

theorem pyStrip_idem (s : String) : pyStrip (pyStrip s) = pyStrip s :=
  congrArg String.mk (stripChars_idem s.data)

theorem isTrimmed_stripDraft (d : Contact) : isTrimmed (stripDraft d) :=
  ⟨pyStrip_idem _, pyStrip_idem _, pyStrip_idem _, pyStrip_idem _⟩

theorem natKey_stripDraft (d : Contact) : natKey (stripDraft d) = natKey d := by
  simp [natKey, stripDraft, pyStrip_idem]

theorem isPrefixOf_eq_true {α} [BEq α] [LawfulBEq α] :
    ∀ (n l : List α), n.isPrefixOf l = true ↔ ∃ t, l = n ++ t
  | [], l => by simp [List.isPrefixOf]
  | a :: n, [] => by simp [List.isPrefixOf]
  | a :: n, b :: l => by
    simp only [List.isPrefixOf, Bool.and_eq_true, beq_iff_eq, isPrefixOf_eq_true n l,
      List.cons_append, List.cons.injEq]
    constructor
    · rintro ⟨rfl, t, rfl⟩
      exact ⟨t, rfl, rfl⟩
    · rintro ⟨t, rfl, rfl⟩
      exact ⟨rfl, t, rfl⟩

theorem listContains_iff (n : List Char) :
    ∀ (l : List Char), listContains n l = true ↔ ∃ p q, l = p ++ n ++ q
  | [] => by
    simp only [listContains, List.isEmpty_iff]
    constructor
    · rintro rfl
      exact ⟨[], [], rfl⟩
    · rintro ⟨p, q, h⟩
      rcases List.append_eq_nil.mp (List.append_eq_nil.mp h.symm).1 with ⟨-, h2⟩
      exact h2
  | c :: t => by
    rw [listContains]
    simp only [Bool.or_eq_true, isPrefixOf_eq_true, listContains_iff n t]
    constructor
    · rintro (⟨s, hs⟩ | ⟨p, q, hq⟩)
      · exact ⟨[], s, by simpa using hs⟩
      · exact ⟨c :: p, q, by simp [hq]⟩
    · rintro ⟨p, q, h⟩
      cases p with
      | nil => exact Or.inl ⟨q, by simpa using h⟩
      | cons x p =>
        rw [List.cons_append, List.cons_append, List.cons.injEq] at h
        exact Or.inr ⟨p, q, h.2⟩

theorem strContains_iff (hay needle : String) :
    strContains hay needle = true ↔ ∃ p q, hay.data = p ++ needle.data ++ q :=
  listContains_iff needle.data hay.data

theorem indexOf?_lt_length [BEq α] {a : α} :
    ∀ {l : List α} {i : Nat}, l.indexOf? a = some i → i < l.length := by
  intro l
  induction l with
  | nil => simp [List.indexOf?_nil]
  | cons x xs ih =>
    intro i h
    rw [List.indexOf?_cons] at h
    split at h
    · cases h
      exact Nat.succ_pos _
    · rcases Option.map_eq_some'.mp h with ⟨j, hj, rfl⟩
      exact Nat.succ_lt_succ (ih hj)

theorem pyLower_eq_empty_iff (s : String) : pyLower s = "" ↔ s = "" := by
  cases s with
  | mk data =>
    show String.mk (data.map Char.toLower) = ⟨[]⟩ ↔ String.mk data = ⟨[]⟩
    simp [String.ext_iff, List.map_eq_nil_iff]

theorem not_nodup_of_getElem_eq {α} {l : List α} {i j : Nat}
    (hi : i < l.length) (hj : j < l.length) (hne : i ≠ j) (heq : l[i] = l[j]) :
    ¬ l.Nodup := by
  intro h
  have hpw := List.pairwise_iff_getElem.mp h
  rcases Nat.lt_or_ge i j with hlt | hge
  · exact hpw i j hi hj hlt heq
  · have hlt : j < i := Nat.lt_of_le_of_ne hge fun e => hne e.symm
    exact hpw j i hj hi hlt heq.symm

/-! Success-case inversion of the handlers. -/

theorem addContact_ok_inv {st st2 : AppState} {d : Contact}
    (h : addContact st d = .ok st2) :
    st2 = applySearch { st with contacts := st.contacts ++ [stripDraft d] } ∧
      pyStrip d.name ≠ "" ∧ pyStrip d.phone ≠ "" ∧
      validate_phone (pyStrip d.phone) = true ∧
      (pyStrip d.email = "" ∨ validate_email (pyStrip d.email) = true) ∧
      ∀ c ∈ st.contacts, natKey c ≠ natKey d := by
  simp only [addContact] at h
  split at h
  · exact absurd h (by simp)
  split at h
  · exact absurd h (by simp)
  split at h
  · exact absurd h (by simp)
  split at h
  · exact absurd h (by simp)
  next h1 h2 h3 h4 =>
  simp only [Except.ok.injEq] at h
  refine ⟨h.symm, ?_, ?_, ?_, ?_, ?_⟩
  · simp only [Bool.or_eq_true, beq_iff_eq] at h1
    exact fun e => h1 (Or.inl e)
  · simp only [Bool.or_eq_true, beq_iff_eq] at h1
    exact fun e => h1 (Or.inr e)
  · simpa using h2
  · by_cases he : pyStrip d.email = ""
    · exact Or.inl he
    · right
      simp [he] at h3
      exact h3
  · intro c hc heq
    simp only [natKey, Prod.mk.injEq] at heq
    apply h4
    rw [List.any_eq_true]
    exact ⟨c, hc, by simp [heq.1, heq.2]⟩

theorem updateContact_ok_inv {st st2 : AppState} {d : Contact}
    (h : updateContact st d = .ok st2) :
    ∃ i target ri, st.selected = some i ∧ st.filtered[i]? = some target ∧
      st.contacts.indexOf? target = some ri ∧
      st2 = applySearch { st with contacts := st.contacts.set ri (stripDraft d) } ∧
      pyStrip d.name ≠ "" ∧ pyStrip d.phone ≠ "" ∧
      validate_phone (pyStrip d.phone) = true ∧
      (pyStrip d.email = "" ∨ validate_email (pyStrip d.email) = true) := by
  simp only [updateContact] at h
  split at h
  · exact absurd h (by simp)
  next i hsel =>
  split at h
  · exact absurd h (by simp)
  split at h
  · exact absurd h (by simp)
  split at h
  · exact absurd h (by simp)
  next h1 h2 h3 =>
  split at h
  · exact absurd h (by simp)
  next target htgt =>
  split at h
  · exact absurd h (by simp)
  next ri hri =>
  simp only [Except.ok.injEq] at h
  refine ⟨i, target, ri, hsel, htgt, hri, h.symm, ?_, ?_, ?_, ?_⟩
  · simp only [Bool.or_eq_true, beq_iff_eq] at h1
    exact fun e => h1 (Or.inl e)
  · simp only [Bool.or_eq_true, beq_iff_eq] at h1
    exact fun e => h1 (Or.inr e)
  · simpa using h2
  · by_cases he : pyStrip d.email = ""
    · exact Or.inl he
    · right
      simp [he] at h3
      exact h3

theorem deleteConfirmed_ok_inv {st st2 : AppState}
    (h : deleteConfirmed st = .ok st2) :
    ∃ i target ri, st.selected = some i ∧ st.filtered[i]? = some target ∧
      st.contacts.indexOf? target = some ri ∧
      st2 = applySearch { st with contacts := st.contacts.eraseIdx ri } := by
  simp only [deleteConfirmed] at h
  split at h
  · exact absurd h (by simp)
  next i hsel =>
  split at h
  · exact absurd h (by simp)
  next target htgt =>
  split at h
  · exact absurd h (by simp)
  next ri hri =>
  simp only [Except.ok.injEq] at h
  exact ⟨i, target, ri, hsel, htgt, hri, h.symm⟩

theorem updateContact_noSelection {st : AppState} {d : Contact}
    (h : st.selected = none) : updateContact st d = .error .noSelection := by
  simp [updateContact, h]

theorem deleteConfirmed_noSelection {st : AppState}
    (h : st.selected = none) : deleteConfirmed st = .error .noSelection := by
  simp [deleteConfirmed, h]

theorem applySearch_selected (st : AppState) : (applySearch st).selected = none := rfl

theorem applySearch_contacts (st : AppState) : (applySearch st).contacts = st.contacts := rfl

/-- C7: persistence round-trip.  Serializing any record sequence the way
`_save_contacts` does and interpreting the parsed value back as records
the way the program consumes it reproduces the same sequence: same
records, same field values, same order. -/
theorem C7_save_load_roundtrip (cs : List Contact) : readStore (saveJson cs) = some cs := by
  induction cs with
  | nil => rfl
  | cons c t ih =>
    have hc : readContact (contactToJson c) = some c := rfl
    have ih2 : readContacts (t.map contactToJson) = some t := by
      simpa [saveJson, readStore] using ih
    simp [saveJson, readStore, readContacts, hc, ih2]

/-- C8 counterexample: a data file that parses to the JSON number `0` has
the wrong shape, and `_load_contacts` does not yield an empty sequence
for it: the parsed value is assigned verbatim and the rebuild of the
filtered view, outside the try block, then raises an uncaught
`TypeError`, so load does raise.  A file parsing to the JSON string `hi`
also keeps the wrong-shape value verbatim with no warning, instead of an
empty record sequence. -/
theorem C8_counterexample :
    loadContacts (FileState.parsed (Json.num 0)) = none ∧
      loadContacts (FileState.parsed (Json.str ("hi"))) =
        some (Json.str ("hi"), [Json.str ("h"), Json.str ("i")], false) ∧
      readStore (Json.str ("hi")) = none :=
  ⟨rfl, rfl, rfl⟩

/-- C8 amended: a missing data file yields the empty sequence silently,
and a file that raises while being opened or parsed yields the empty
sequence with the recoverable warning; but a wrong-shape file is not
bypassed: any value `json.load` returns is assigned to the store verbatim
with no shape check, load completes exactly when that value is iterable,
and a file parsing to a non-iterable JSON value (a number, a boolean or
null) makes load raise an uncaught `TypeError` out of the rebuild of the
filtered view. -/
theorem C8_load_amended :
    loadContacts FileState.missing = some (Json.arr [], [], false) ∧
      loadContacts FileState.unreadable = some (Json.arr [], [], true) ∧
      readStore (Json.arr []) = some [] ∧
      (∀ j l, pyList j = some l → loadContacts (FileState.parsed j) = some (j, l, false)) ∧
      (∀ j, pyList j = none → loadContacts (FileState.parsed j) = none) := by
  refine ⟨rfl, rfl, rfl, ?_, ?_⟩
  · intro j l h
    simp [loadContacts, h]
  · intro j h
    simp [loadContacts, h]

/-- Witness for the amended C8 theorem at concrete inputs: an empty-array
file loads verbatim and completes, and a file holding the number seven
makes load raise. -/
theorem C8_load_amended_witness :
    loadContacts (FileState.parsed (Json.arr [])) = some (Json.arr [], [], false) ∧
      loadContacts (FileState.parsed (Json.num 7)) = none :=
  ⟨C8_load_amended.2.2.2.1 (Json.arr []) [] rfl,
    C8_load_amended.2.2.2.2 (Json.num 7) rfl⟩

/-- C6 counterexample: with the store holding the single record named
`xab` and the query a whitespace-padded capital `AB`, the filter keeps the
record, although neither its name nor its phone contains the query itself
as a case-insensitive substring: the code matches the stripped query. -/
theorem C6_counterexample :
    applyFilter [⟨"xab", "1234567", "", ""⟩] (" AB ") = [⟨"xab", "1234567", "", ""⟩] ∧
      pyStrip (" AB ") ≠ "" ∧
      strContains (pyLower ("xab")) (pyLower (" AB ")) = false ∧
      strContains (pyLower ("1234567")) (pyLower (" AB ")) = false := by decide

/-- C6 amended: the filter is a pure function of the store and the query;
a query that is empty after trimming yields the full store in order, and
any other query yields exactly the records whose lowered name or lowered
phone contains the lowered trimmed query contiguously, as a subsequence of
the store preserving relative order. -/
theorem C6_filter_amended (cs : List Contact) (q : String) :
    (pyStrip q = "" → applyFilter cs q = cs) ∧
      List.Sublist (applyFilter cs q) cs ∧
      (pyStrip q ≠ "" → ∀ c, c ∈ applyFilter cs q ↔ c ∈ cs ∧
        ((∃ p s, (pyLower c.name).data = p ++ (pyLower (pyStrip q)).data ++ s) ∨
         (∃ p s, (pyLower c.phone).data = p ++ (pyLower (pyStrip q)).data ++ s))) := by
  refine ⟨?_, ?_, ?_⟩
  · intro hq
    have hterm : pyLower (pyStrip q) = "" := by rw [hq]; rfl
    simp [applyFilter, hterm]
  · simp only [applyFilter]
    split
    · exact List.Sublist.refl cs
    · exact List.filter_sublist cs
  · intro hq c
    have hterm : ¬ (pyLower (pyStrip q) = "") := fun h => hq ((pyLower_eq_empty_iff _).mp h)
    simp only [applyFilter, if_neg hterm, List.mem_filter, Bool.or_eq_true, strContains_iff]

/-- Witness for the amended C6 theorem at concrete inputs: a blank query
returns the store, and the query `AB` keeps the record named `xab`. -/
theorem C6_filter_amended_witness :
    applyFilter [⟨"xab", "1234567", "", ""⟩] ("  ") = [⟨"xab", "1234567", "", ""⟩] ∧
      (⟨"xab", "1234567", "", ""⟩ : Contact) ∈ applyFilter [⟨"xab", "1234567", "", ""⟩] ("AB") := by
  constructor
  · exact (C6_filter_amended _ ("  ")).1 (by decide)
  · exact ((C6_filter_amended [⟨"xab", "1234567", "", ""⟩] ("AB")).2.2 (by decide)
      ⟨"xab", "1234567", "", ""⟩).mpr ⟨by decide, Or.inl ⟨['x'], [], by decide⟩⟩

/-- C10: every successful mutation and every query change goes through
`_apply_search`, which resets the selection to none; an update or delete
attempted on the resulting state, with no intervening re-selection, fails
with the no-selection error before touching the store (an error return
leaves the state unchanged by construction of the embedding). -/
theorem C10_selection_reset (st st2 : AppState) (d : Contact) (q : String)
    (items : List Contact) (n : Nat)
    (h : addContact st d = .ok st2 ∨ updateContact st d = .ok st2 ∨
      deleteConfirmed st = .ok st2 ∨ importMerge st items = (st2, n) ∨ st2 = setQuery st q) :
    st2.selected = none ∧
      (∀ d2, updateContact st2 d2 = .error .noSelection) ∧
      deleteConfirmed st2 = .error .noSelection := by
  have hsel : st2.selected = none := by
    rcases h with h | h | h | h | h
    · rcases addContact_ok_inv h with ⟨rfl, -⟩
      rfl
    · rcases updateContact_ok_inv h with ⟨i, t, ri, -, -, -, rfl, -⟩
      rfl
    · rcases deleteConfirmed_ok_inv h with ⟨i, t, ri, -, -, -, rfl⟩
      rfl
    · have h1 : (importMerge st items).1 = st2 := by rw [h]
      rw [← h1]
      rfl
    · rw [h]
      rfl
  exact ⟨hsel, fun d2 => updateContact_noSelection hsel, deleteConfirmed_noSelection hsel⟩

/-- Witness for C10 at a concrete input: changing the query on a state
with an active selection clears it and makes update and delete fail. -/
theorem C10_selection_reset_witness :
    (setQuery ⟨[], [], "", some 0⟩ ("x")).selected = none ∧
      (∀ d2, updateContact (setQuery ⟨[], [], "", some 0⟩ ("x")) d2 = .error .noSelection) ∧
      deleteConfirmed (setQuery ⟨[], [], "", some 0⟩ ("x")) = .error .noSelection :=
  C10_selection_reset ⟨[], [], "", some 0⟩ _ ⟨"", "", "", ""⟩ ("x") [] 0
    (Or.inr (Or.inr (Or.inr (Or.inr rfl))))

/-- C4: add is idempotent-rejecting.  For any store whose records do not
already carry the shared key, adding the first of two valid drafts with
equal natural keys succeeds and appends its stripped record at the end,
and adding the second on the resulting state fails with the duplicate-key
error (which in the embedding returns no new state: the store is
unchanged). -/
theorem C4_add_idempotent_rejecting (st : AppState) (d1 d2 : Contact)
    (h1name : pyStrip d1.name ≠ "") (h1ph : pyStrip d1.phone ≠ "")
    (h1phv : validate_phone (pyStrip d1.phone) = true)
    (h1em : pyStrip d1.email = "" ∨ validate_email (pyStrip d1.email) = true)
    (h2name : pyStrip d2.name ≠ "") (h2ph : pyStrip d2.phone ≠ "")
    (h2phv : validate_phone (pyStrip d2.phone) = true)
    (h2em : pyStrip d2.email = "" ∨ validate_email (pyStrip d2.email) = true)
    (hkey : natKey d1 = natKey d2)
    (hfresh : ∀ c ∈ st.contacts, natKey c ≠ natKey d1) :
    ∃ st1, addContact st d1 = .ok st1 ∧
      st1.contacts = st.contacts ++ [stripDraft d1] ∧
      addContact st1 d2 = .error .duplicateKey := by
  simp only [natKey, Prod.mk.injEq] at hkey
  have e1 : (pyStrip d1.name == "") = false := beq_eq_false_iff_ne.mpr h1name
  have e2 : (pyStrip d1.phone == "") = false := beq_eq_false_iff_ne.mpr h1ph
  have e4 : (!(pyStrip d1.email == "") && !(validate_email (pyStrip d1.email))) = false := by
    rcases h1em with he | he <;> simp [he]
  have e5 : (st.contacts.any fun c =>
      pyLower (pyStrip c.name) == pyLower (pyStrip d1.name) &&
        pyStrip c.phone == pyStrip d1.phone) = false := by
    rw [List.any_eq_false]
    intro c hc hcontra
    simp only [Bool.and_eq_true, beq_iff_eq] at hcontra
    exact hfresh c hc (by simp [natKey, hcontra.1, hcontra.2])
  have f1 : (pyStrip d2.name == "") = false := beq_eq_false_iff_ne.mpr h2name
  have f2 : (pyStrip d2.phone == "") = false := beq_eq_false_iff_ne.mpr h2ph
  have f4 : (!(pyStrip d2.email == "") && !(validate_email (pyStrip d2.email))) = false := by
    rcases h2em with he | he <;> simp [he]
  have f5 : ((st.contacts ++ [stripDraft d1]).any fun c =>
      pyLower (pyStrip c.name) == pyLower (pyStrip d2.name) &&
        pyStrip c.phone == pyStrip d2.phone) = true := by
    rw [List.any_eq_true]
    refine ⟨stripDraft d1, by simp, ?_⟩
    simp only [stripDraft, Bool.and_eq_true, beq_iff_eq]
    exact ⟨by rw [pyStrip_idem, hkey.1], by rw [pyStrip_idem, hkey.2]⟩
  refine ⟨applySearch { st with contacts := st.contacts ++ [stripDraft d1] }, ?_, rfl, ?_⟩
  · simp [addContact, e1, e2, h1phv, e4, e5, stripDraft]
  · simp [addContact, applySearch, f1, f2, h2phv, f4, f5]

/-- Witness for C4 at concrete inputs: on the empty store, adding the
draft `A / 5550100` succeeds and re-adding the whitespace-padded variant
of the same key fails with the duplicate error. -/
theorem C4_add_idempotent_rejecting_witness :
    ∃ st1, addContact ⟨[], [], "", none⟩ ⟨"A", "5550100", "", ""⟩ = .ok st1 ∧
      st1.contacts = [] ++ [stripDraft ⟨"A", "5550100", "", ""⟩] ∧
      addContact st1 ⟨" a ", " 5550100 ", "", ""⟩ = .error .duplicateKey :=
  C4_add_idempotent_rejecting ⟨[], [], "", none⟩ ⟨"A", "5550100", "", ""⟩
    ⟨" a ", " 5550100 ", "", ""⟩ (by decide) (by decide) (by decide) (Or.inl (by decide))
    (by decide) (by decide) (by decide) (Or.inl (by decide)) (by decide)
    (by intro c hc; cases hc)

/-- C3: update never re-checks the duplicate key.  With any valid
selection resolving to canonical index `ri` and a valid draft whose
natural key equals that of a record at a different index `j`, the update
succeeds with no duplicate-key error, replaces the resolved record with
the stripped draft in place, and the store afterwards contains two records
sharing a natural key. -/
theorem C3_update_duplicate_key (st : AppState) (d : Contact) (i : Nat)
    (target : Contact) (ri j : Nat)
    (hsel : st.selected = some i) (htgt : st.filtered[i]? = some target)
    (hri : st.contacts.indexOf? target = some ri)
    (hname : pyStrip d.name ≠ "") (hph : pyStrip d.phone ≠ "")
    (hphv : validate_phone (pyStrip d.phone) = true)
    (hem : pyStrip d.email = "" ∨ validate_email (pyStrip d.email) = true)
    (hj : j < st.contacts.length) (hne : j ≠ ri)
    (hdup : natKey st.contacts[j] = natKey d) :
    ∃ st2, updateContact st d = .ok st2 ∧
      st2.contacts = st.contacts.set ri (stripDraft d) ∧
      ¬ keysDistinct st2.contacts := by
  have e1 : (pyStrip d.name == "") = false := beq_eq_false_iff_ne.mpr hname
  have e2 : (pyStrip d.phone == "") = false := beq_eq_false_iff_ne.mpr hph
  have e4 : (!(pyStrip d.email == "") && !(validate_email (pyStrip d.email))) = false := by
    rcases hem with he | he <;> simp [he]
  refine ⟨applySearch { st with contacts := st.contacts.set ri (stripDraft d) }, ?_, rfl, ?_⟩
  · simp [updateContact, hsel, htgt, hri, e1, e2, hphv, e4, stripDraft]
  · have hri_lt : ri < st.contacts.length := indexOf?_lt_length hri
    show ¬ keysDistinct (st.contacts.set ri (stripDraft d))
    unfold keysDistinct
    have hmaplen : ((st.contacts.set ri (stripDraft d)).map natKey).length =
        st.contacts.length := by simp
    apply not_nodup_of_getElem_eq (i := ri) (j := j)
      (by rw [hmaplen]; exact hri_lt) (by rw [hmaplen]; exact hj)
      (fun e => hne e.symm)
    rw [List.getElem_map, List.getElem_map,
      List.getElem_set_self, List.getElem_set_ne (show ri ≠ j from fun e => hne e.symm),
      natKey_stripDraft, hdup]

/-- Witness for C3 at concrete inputs: with `A` selected and the draft
carrying the key of `B`, the update succeeds and duplicates the key. -/
theorem C3_update_duplicate_key_witness :
    ∃ st2, updateContact ⟨[⟨"A", "1111111", "", ""⟩, ⟨"B", "2222222", "", ""⟩],
        [⟨"A", "1111111", "", ""⟩, ⟨"B", "2222222", "", ""⟩], "", some 0⟩
        ⟨"B", "2222222", "", "x"⟩ = .ok st2 ∧
      st2.contacts = [⟨"A", "1111111", "", ""⟩, ⟨"B", "2222222", "", ""⟩].set 0
        (stripDraft ⟨"B", "2222222", "", "x"⟩) ∧
      ¬ keysDistinct st2.contacts :=
  C3_update_duplicate_key _ ⟨"B", "2222222", "", "x"⟩ 0 ⟨"A", "1111111", "", ""⟩ 0 1
    (by decide) (by decide) (by decide) (by decide) (by decide) (by decide)
    (Or.inl (by decide)) (by decide) (by decide) (by decide)

/-- C5: on a parsed import file all of whose items have nonempty trimmed
name and phone, the merge appends exactly the stripped items whose key is
not already present in the store, in file order, and reports their count:
items duplicating an existing key are dropped and not counted. -/
theorem C5_import_merge_count (st : AppState) (items : List Contact)
    (hp : ∀ i ∈ items, pyStrip i.name ≠ "" ∧ pyStrip i.phone ≠ "") :
    ∃ news, (importMerge st items).1.contacts = st.contacts ++ news ∧
      (importMerge st items).2 = news.length ∧
      news = (items.map stripDraft).filter
        (fun c => !((st.contacts.map impKey).contains (impKey c))) := by
  have hvalid : (items.map stripDraft).filter
      (fun c => !(c.name == "") && !(c.phone == "")) = items.map stripDraft := by
    rw [List.filter_eq_self]
    intro a ha
    rcases List.mem_map.mp ha with ⟨i, hi, rfl⟩
    rcases hp i hi with ⟨h1, h2⟩
    simp [stripDraft, h1, h2]
  refine ⟨_, ?_, ?_, rfl⟩
  · show (applySearch _).contacts = _
    rw [applySearch_contacts]
    simp only [importMerge, hvalid]
  · show (((items.map stripDraft).filter (fun c => !(c.name == "") && !(c.phone == ""))).filter
        (fun c => !((st.contacts.map impKey).contains (impKey c)))).length = _
    rw [hvalid]

/-- Witness for C5 at concrete inputs: one fresh item and one item whose
key duplicates the stored record are merged as exactly one appended
record with a reported count of one. -/
theorem C5_import_merge_count_witness :
    ∃ news, (importMerge ⟨[⟨"A", "1111111", "", ""⟩], [⟨"A", "1111111", "", ""⟩], "", none⟩
        [⟨" B ", " 2222222 ", "", ""⟩, ⟨" a ", " 1111111 ", "", ""⟩]).1.contacts =
        [⟨"A", "1111111", "", ""⟩] ++ news ∧
      (importMerge ⟨[⟨"A", "1111111", "", ""⟩], [⟨"A", "1111111", "", ""⟩], "", none⟩
        [⟨" B ", " 2222222 ", "", ""⟩, ⟨" a ", " 1111111 ", "", ""⟩]).2 = news.length ∧
      news = ([⟨" B ", " 2222222 ", "", ""⟩, ⟨" a ", " 1111111 ", "", ""⟩].map stripDraft).filter
        (fun c => !(([⟨"A", "1111111", "", ""⟩].map impKey).contains (impKey c))) :=
  C5_import_merge_count ⟨[⟨"A", "1111111", "", ""⟩], [⟨"A", "1111111", "", ""⟩], "", none⟩
    [⟨" B ", " 2222222 ", "", ""⟩, ⟨" a ", " 1111111 ", "", ""⟩] (by decide)

/-- C9: every record that enters the canonical list through add, update
or import-merge is stored with all four fields stripped of surrounding
whitespace: any record of the resulting list is either an old record or
equal to its own trimmed form. -/
theorem C9_new_records_trimmed (st st2 : AppState) (d : Contact) (items : List Contact) :
    (addContact st d = .ok st2 → ∀ c ∈ st2.contacts, c ∈ st.contacts ∨ isTrimmed c) ∧
      (updateContact st d = .ok st2 → ∀ c ∈ st2.contacts, c ∈ st.contacts ∨ isTrimmed c) ∧
      (∀ c ∈ (importMerge st items).1.contacts, c ∈ st.contacts ∨ isTrimmed c) := by
  refine ⟨?_, ?_, ?_⟩
  · intro h c hc
    rcases addContact_ok_inv h with ⟨rfl, -⟩
    rw [applySearch_contacts] at hc
    rcases List.mem_append.mp hc with h1 | h1
    · exact Or.inl h1
    · rcases List.mem_singleton.mp h1 with rfl
      exact Or.inr (isTrimmed_stripDraft d)
  · intro h c hc
    rcases updateContact_ok_inv h with ⟨i, t, ri, -, -, -, rfl, -⟩
    rw [applySearch_contacts] at hc
    rcases List.mem_or_eq_of_mem_set hc with h1 | rfl
    · exact Or.inl h1
    · exact Or.inr (isTrimmed_stripDraft d)
  · intro c hc
    rw [show (importMerge st items).1.contacts = st.contacts ++
        (((items.map stripDraft).filter (fun c => !(c.name == "") && !(c.phone == ""))).filter
          (fun c => !((st.contacts.map impKey).contains (impKey c)))) from rfl] at hc
    rcases List.mem_append.mp hc with h1 | h1
    · exact Or.inl h1
    · have h2 := (List.mem_filter.mp h1).1
      have h3 := (List.mem_filter.mp h2).1
      rcases List.mem_map.mp h3 with ⟨i, -, rfl⟩
      exact Or.inr (isTrimmed_stripDraft i)

/-- Witness for C9 at a concrete input: the record imported from a padded
item lands in the store in trimmed form. -/
theorem C9_new_records_trimmed_witness :
    (⟨"B", "1234567", "", ""⟩ : Contact) ∈ ([] : List Contact) ∨
      isTrimmed ⟨"B", "1234567", "", ""⟩ :=
  (C9_new_records_trimmed ⟨[], [], "", none⟩ ⟨[], [], "", none⟩ ⟨"", "", "", ""⟩
    [⟨" B ", " 1234567 ", "", ""⟩]).2.2 ⟨"B", "1234567", "", ""⟩ (by decide)

/-- A stripped draft that passes the three interactive checks satisfies
the Validator rules as a stored record. -/
theorem validRecord_stripDraft {d : Contact} (hname : pyStrip d.name ≠ "")
    (hph : pyStrip d.phone ≠ "") (hphv : validate_phone (pyStrip d.phone) = true)
    (hem : pyStrip d.email = "" ∨ validate_email (pyStrip d.email) = true) :
    validRecord (stripDraft d) = true := by
  simp only [validRecord, stripDraft, pyStrip_idem]
  rcases hem with he | he <;> simp [hname, hph, hphv, he]

/-- C2 counterexample: from the empty store, importing one item whose
phone `123` fails the phone pattern reaches a store whose single record
violates the Validator rules, because import checks only field presence. -/
theorem C2_counterexample :
    Reachable ⟨[⟨"C", "123", "", ""⟩], [⟨"C", "123", "", ""⟩], "", none⟩ ∧
      (⟨"C", "123", "", ""⟩ : Contact) ∈ [(⟨"C", "123", "", ""⟩ : Contact)] ∧
      validRecord ⟨"C", "123", "", ""⟩ = false := by
  refine ⟨?_, by decide, by decide⟩
  have h := Reachable.importOk ⟨[], [], "", none⟩ [⟨"C", "123", "", ""⟩] Reachable.init
  have he : (importMerge ⟨[], [], "", none⟩ [⟨"C", "123", "", ""⟩]).1 =
      ⟨[⟨"C", "123", "", ""⟩], [⟨"C", "123", "", ""⟩], "", none⟩ := by decide
  rw [he] at h
  exact h

/-- C2 amended: records entering through add or update satisfy the full
Validator rules; records entering through import-merge are only guaranteed
nonempty trimmed name and phone, the pattern and shape checks being
skipped for import; load performs no validation at all. -/
theorem C2_validator_amended (st st2 : AppState) (d : Contact) (items : List Contact) :
    (addContact st d = .ok st2 → ∀ c ∈ st2.contacts, c ∈ st.contacts ∨ validRecord c = true) ∧
      (updateContact st d = .ok st2 →
        ∀ c ∈ st2.contacts, c ∈ st.contacts ∨ validRecord c = true) ∧
      (∀ c ∈ (importMerge st items).1.contacts, c ∈ st.contacts ∨
        (pyStrip c.name ≠ "" ∧ pyStrip c.phone ≠ "")) := by
  refine ⟨?_, ?_, ?_⟩
  · intro h c hc
    rcases addContact_ok_inv h with ⟨rfl, hname, hph, hphv, hem, -⟩
    rw [applySearch_contacts] at hc
    rcases List.mem_append.mp hc with h1 | h1
    · exact Or.inl h1
    · rcases List.mem_singleton.mp h1 with rfl
      exact Or.inr (validRecord_stripDraft hname hph hphv hem)
  · intro h c hc
    rcases updateContact_ok_inv h with ⟨i, t, ri, -, -, -, rfl, hname, hph, hphv, hem⟩
    rw [applySearch_contacts] at hc
    rcases List.mem_or_eq_of_mem_set hc with h1 | rfl
    · exact Or.inl h1
    · exact Or.inr (validRecord_stripDraft hname hph hphv hem)
  · intro c hc
    rw [show (importMerge st items).1.contacts = st.contacts ++
        (((items.map stripDraft).filter (fun c => !(c.name == "") && !(c.phone == ""))).filter
          (fun c => !((st.contacts.map impKey).contains (impKey c)))) from rfl] at hc
    rcases List.mem_append.mp hc with h1 | h1
    · exact Or.inl h1
    · have h2 := (List.mem_filter.mp h1).1
      have hcond := (List.mem_filter.mp h2).2
      have h3 := (List.mem_filter.mp h2).1
      rcases List.mem_map.mp h3 with ⟨i, -, rfl⟩
      simp only [stripDraft, Bool.and_eq_true, Bool.not_eq_true', beq_eq_false_iff_ne] at hcond
      refine Or.inr ⟨?_, ?_⟩
      · show pyStrip (stripDraft i).name ≠ ""
        simp only [stripDraft]
        rw [pyStrip_idem]
        exact hcond.1
      · show pyStrip (stripDraft i).phone ≠ ""
        simp only [stripDraft]
        rw [pyStrip_idem]
        exact hcond.2

/-- Witness for the amended C2 theorem at a concrete input: the record
appended by a successful concrete add satisfies the Validator rules. -/
theorem C2_validator_amended_witness :
    (⟨"A", "1111111", "", ""⟩ : Contact) ∈ ([] : List Contact) ∨
      validRecord ⟨"A", "1111111", "", ""⟩ = true :=
  (C2_validator_amended ⟨[], [], "", none⟩
      ⟨[⟨"A", "1111111", "", ""⟩], [⟨"A", "1111111", "", ""⟩], "", none⟩
      ⟨"A", "1111111", "", ""⟩ []).1 rfl ⟨"A", "1111111", "", ""⟩ (by decide)

/-- C1 counterexample: natural-key uniqueness is not preserved by update
or by import-merge.  From the empty store, adding `A` and `B`, selecting
the row of `A` and updating it with a draft carrying the key of `B`
reaches a store with two records of key `b / 2222222`; and one import of a
file holding two distinct items with the same fresh key appends both. -/
theorem C1_counterexample :
    Reachable ⟨[⟨"B", "2222222", "", "x"⟩, ⟨"B", "2222222", "", ""⟩],
        [⟨"B", "2222222", "", "x"⟩, ⟨"B", "2222222", "", ""⟩], "", none⟩ ∧
      ¬ keysDistinct [⟨"B", "2222222", "", "x"⟩, ⟨"B", "2222222", "", ""⟩] ∧
      ¬ keysDistinct (importMerge ⟨[], [], "", none⟩
        [⟨"C", "3333333", "", ""⟩, ⟨"C", "3333333", "", "y"⟩]).1.contacts := by
  refine ⟨?_, by unfold keysDistinct; decide, by unfold keysDistinct; decide⟩
  have h1 : Reachable ⟨[⟨"A", "1111111", "", ""⟩], [⟨"A", "1111111", "", ""⟩], "", none⟩ :=
    Reachable.addOk _ _ ⟨"A", "1111111", "", ""⟩ Reachable.init rfl
  have h2 : Reachable ⟨[⟨"A", "1111111", "", ""⟩, ⟨"B", "2222222", "", ""⟩],
      [⟨"A", "1111111", "", ""⟩, ⟨"B", "2222222", "", ""⟩], "", none⟩ :=
    Reachable.addOk _ _ ⟨"B", "2222222", "", ""⟩ h1 rfl
  have h3 : Reachable ⟨[⟨"A", "1111111", "", ""⟩, ⟨"B", "2222222", "", ""⟩],
      [⟨"A", "1111111", "", ""⟩, ⟨"B", "2222222", "", ""⟩], "", some 0⟩ :=
    Reachable.selectSome _ 0 h2 (by decide)
  exact Reachable.updateOk _ _ ⟨"B", "2222222", "", "x"⟩ h3 rfl

/-- C1 amended: natural-key uniqueness of the canonical list is preserved
by a successful add and by a confirmed delete; update and import-merge do
not preserve it (update never re-checks the key, and import dedupes only
against the pre-import store, not within the file). -/
theorem C1_key_uniqueness_amended (st st2 : AppState) (d : Contact)
    (hdist : keysDistinct st.contacts) :
    (addContact st d = .ok st2 → keysDistinct st2.contacts) ∧
      (deleteConfirmed st = .ok st2 → keysDistinct st2.contacts) := by
  constructor
  · intro h
    rcases addContact_ok_inv h with ⟨rfl, -, -, -, -, hfresh⟩
    show keysDistinct (st.contacts ++ [stripDraft d])
    unfold keysDistinct at hdist ⊢
    rw [List.map_append, List.map_singleton, List.nodup_append]
    refine ⟨hdist, List.nodup_singleton _, ?_⟩
    intro a ha hb
    rcases List.mem_map.mp ha with ⟨c, hc, rfl⟩
    rcases List.mem_singleton.mp hb with he
    rw [natKey_stripDraft] at he
    exact hfresh c hc he
  · intro h
    rcases deleteConfirmed_ok_inv h with ⟨i, t, ri, -, -, -, rfl⟩
    show keysDistinct (st.contacts.eraseIdx ri)
    unfold keysDistinct at hdist ⊢
    exact hdist.sublist ((List.eraseIdx_sublist st.contacts ri).map natKey)

/-- Witness for the amended C1 theorem at a concrete input: the store
reached by adding `A` to the empty store has pairwise-distinct keys. -/
theorem C1_key_uniqueness_amended_witness :
    keysDistinct (AppState.mk [⟨"A", "1111111", "", ""⟩] [⟨"A", "1111111", "", ""⟩]
      "" none).contacts :=
  (C1_key_uniqueness_amended ⟨[], [], "", none⟩
      ⟨[⟨"A", "1111111", "", ""⟩], [⟨"A", "1111111", "", ""⟩], "", none⟩
      ⟨"A", "1111111", "", ""⟩ (by unfold keysDistinct; decide)).1 rfl
